import Mathlib

/-!
# Credential and token lifecycle of FromSprueToGlory

A shallow embedding of the authentication core of the repository:

* `src/server/src/utils/jwt.ts` — token codec (sign / verify with two keys);
* `src/server/src/routes/auth.routes.ts` — signup, login, refresh, logout;
* `src/server/src/middleware/auth.middleware.ts` — the inbound gatekeeper;
* the Angular client's `AuthService` and `JwtInterceptor` — the outbound
  credential manager.

Tokens are modelled symbolically: `jsonwebtoken`'s HS256 signing is a
deterministic injective encoding of the payload, the issued-at / expiry
seconds and the signing key, so a signed token is represented by exactly
those data, and token-string equality is structural equality.  Times are
natural numbers (`Date.now()` milliseconds); the JWT clock is the quotient
by 1000, matching `Math.floor(Date.now() / 1000)` in `jsonwebtoken`.
-/

namespace FSG

/-- The two signing secrets (`JWT_SECRET` vs `JWT_REFRESH_SECRET`). -/
inductive Key where
  | access
  | refresh
deriving DecidableEq, Repr

/-- Identity claims placed in every token (`TokenPayload` in `utils/jwt.ts`). -/
structure TokenPayload where
  userId : String
  email : String
deriving DecidableEq, Repr

/-- A signed JWT, symbolically: its payload claims, the `iat` and `exp`
seconds stamped by `jwt.sign`, and the key it was signed with.  Two token
strings are equal iff all these components are equal. -/
structure SignedToken where
  userId : String
  email : String
  iat : Nat
  exp : Nat
  key : Key
deriving DecidableEq, Repr

/-- `JWT_EXPIRES_IN = '15m'`, in seconds. -/
def accessTTLsec : Nat := 15 * 60

/-- `JWT_REFRESH_EXPIRES_IN = '7d'`, in seconds. -/
def refreshTTLsec : Nat := 7 * 24 * 60 * 60

/-- The hard-coded registry expiry `7 * 24 * 60 * 60 * 1000` milliseconds
used for every `prisma.refreshToken.create` in `auth.routes.ts`. -/
def refreshTTLms : Nat := 7 * 24 * 60 * 60 * 1000

/-- `generateAccessToken` (`utils/jwt.ts`): sign the payload with the access
key; `jwt.sign` stamps `iat = floor(now/1000)` and `exp = iat + ttl`. -/
def generateAccessToken (p : TokenPayload) (nowMs : Nat) : SignedToken :=
  { userId := p.userId, email := p.email, iat := nowMs / 1000,
    exp := nowMs / 1000 + accessTTLsec, key := Key.access }

/-- `generateRefreshToken` (`utils/jwt.ts`): sign with the refresh key. -/
def generateRefreshToken (p : TokenPayload) (nowMs : Nat) : SignedToken :=
  { userId := p.userId, email := p.email, iat := nowMs / 1000,
    exp := nowMs / 1000 + refreshTTLsec, key := Key.refresh }

/-- `verifyAccessToken` (`utils/jwt.ts`): `jwt.verify(token, JWT_SECRET)`
succeeds iff the token was signed with the access key and
`floor(now/1000) < exp`; failure (wrong key, tampering, expiry) throws,
modelled as `none`. -/
def verifyAccessToken (t : SignedToken) (nowMs : Nat) : Option TokenPayload :=
  if t.key = Key.access ∧ nowMs / 1000 < t.exp then
    some ⟨ t.userId, t.email ⟩
  else
    none

/-- `verifyRefreshToken` (`utils/jwt.ts`): same with the refresh key. -/
def verifyRefreshToken (t : SignedToken) (nowMs : Nat) : Option TokenPayload :=
  if t.key = Key.refresh ∧ nowMs / 1000 < t.exp then
    some ⟨ t.userId, t.email ⟩
  else
    none

/-- A stored password column value.  `bcrypt.hash(pw, 12)` is modelled as an
opaque salted-hash constructor; `plain` stands for storing the plaintext
itself (never produced by the code, needed to state that it never is). -/
inductive StoredPassword where
  | plain (pw : String)
  | bcrypt (salt : Nat) (cost : Nat) (pw : String)
deriving DecidableEq, Repr

/-- `bcrypt.hash(pw, cost)` with a (random) salt. -/
def bcryptHash (pw : String) (cost : Nat) (salt : Nat) : StoredPassword :=
  StoredPassword.bcrypt salt cost pw

/-- `bcrypt.compare(pw, stored)`: true iff `stored` is a bcrypt hash of
`pw`; comparing against a non-hash value yields false. -/
def bcryptCompare (pw : String) (h : StoredPassword) : Bool :=
  match h with
  | StoredPassword.plain _ => false
  | StoredPassword.bcrypt _ _ stored => decide (pw = stored)

/-- A row of the `users` table. -/
structure User where
  id : String
  email : String
  passwordHash : StoredPassword
deriving DecidableEq, Repr

/-- A row of the `refresh_tokens` table (`token` has a unique index). -/
structure RefreshTokenRecord where
  id : Nat
  token : SignedToken
  userId : String
  expiresAt : Nat
deriving DecidableEq, Repr

/-- The persistent server state: both tables plus a fresh-id counter
standing for Prisma's `cuid()` generation. -/
structure ServerState where
  users : List User
  tokens : List RefreshTokenRecord
  nextId : Nat
deriving DecidableEq, Repr

/-- A JSON response body, restricted to the shapes `auth.routes.ts` sends. -/
inductive RespBody where
  | errorMsg (msg : String)
  | authSuccess (access : SignedToken) (refreshTok : SignedToken)
      (userId : String) (email : String)
  | refreshSuccess (access : SignedToken) (refreshTok : SignedToken)
  | message (msg : String)
deriving DecidableEq, Repr

/-- An HTTP response: status code plus JSON body. -/
structure Resp where
  status : Nat
  body : RespBody
deriving DecidableEq, Repr

/-- `POST /api/auth/signup` (`auth.routes.ts`), after `signupSchema`
validation has succeeded: look up the exact email, 409 on a hit, otherwise
hash the password with cost 12, create the user, sign a pair and persist
one refresh-token row expiring `refreshTTLms` from now.  `salt` is the
random bcrypt salt; fresh ids are drawn from the counter. -/
def signupHandler (s : ServerState) (email pw : String) (salt nowMs : Nat) :
    Resp × ServerState :=
  match s.users.find? (fun u => decide (u.email = email)) with
  | some _ => (⟨ 409, RespBody.errorMsg "Email already registered" ⟩, s)
  | none =>
    let passwordHash := bcryptHash pw 12 salt
    let uid := "u" ++ Nat.repr s.nextId
    let user : User := ⟨ uid, email, passwordHash ⟩
    let payload : TokenPayload := ⟨ uid, email ⟩
    let accessToken := generateAccessToken payload nowMs
    let refreshToken := generateRefreshToken payload nowMs
    let newRec : RefreshTokenRecord :=
      ⟨ s.nextId + 1, refreshToken, uid, nowMs + refreshTTLms ⟩
    (⟨ 201, RespBody.authSuccess accessToken refreshToken uid email ⟩,
     { users := s.users ++ [user], tokens := s.tokens ++ [newRec],
       nextId := s.nextId + 2 })

/-- `POST /api/auth/login` (`auth.routes.ts`), after validation: look up by
exact email; absent → 401; `bcrypt.compare` failure → the same 401 body;
otherwise sign a pair and persist one refresh-token row. -/
def loginHandler (s : ServerState) (email pw : String) (nowMs : Nat) :
    Resp × ServerState :=
  match s.users.find? (fun u => decide (u.email = email)) with
  | none => (⟨ 401, RespBody.errorMsg "Invalid email or password" ⟩, s)
  | some user =>
    if bcryptCompare pw user.passwordHash then
      let payload : TokenPayload := ⟨ user.id, user.email ⟩
      let accessToken := generateAccessToken payload nowMs
      let refreshToken := generateRefreshToken payload nowMs
      let newRec : RefreshTokenRecord :=
        ⟨ s.nextId, refreshToken, user.id, nowMs + refreshTTLms ⟩
      (⟨ 200, RespBody.authSuccess accessToken refreshToken user.id user.email ⟩,
       { users := s.users, tokens := s.tokens ++ [newRec],
         nextId := s.nextId + 1 })
    else
      (⟨ 401, RespBody.errorMsg "Invalid email or password" ⟩, s)

/-- `POST /api/auth/refresh` (`auth.routes.ts`), after validation, run as an
uninterrupted sequence: `verifyRefreshToken` (throw → catch → 401 "Invalid
refresh token"); `findUnique` by exact token and the strict
`expiresAt < new Date()` check (miss or past → 401 "Invalid or expired
refresh token"); then delete the found row by id, sign a new pair from the
token's verified claims and persist the new row. -/
def refreshHandler (s : ServerState) (t : SignedToken) (nowMs : Nat) :
    Resp × ServerState :=
  match verifyRefreshToken t nowMs with
  | none => (⟨ 401, RespBody.errorMsg "Invalid refresh token" ⟩, s)
  | some payload =>
    match s.tokens.find? (fun r => decide (r.token = t)) with
    | none => (⟨ 401, RespBody.errorMsg "Invalid or expired refresh token" ⟩, s)
    | some stored =>
      if stored.expiresAt < nowMs then
        (⟨ 401, RespBody.errorMsg "Invalid or expired refresh token" ⟩, s)
      else
        let newAccessToken := generateAccessToken payload nowMs
        let newRefreshToken := generateRefreshToken payload nowMs
        let newRec : RefreshTokenRecord :=
          ⟨ s.nextId, newRefreshToken, payload.userId, nowMs + refreshTTLms ⟩
        (⟨ 200, RespBody.refreshSuccess newAccessToken newRefreshToken ⟩,
         { users := s.users,
           tokens := (s.tokens.filter (fun r => decide (¬ r.id = stored.id)))
             ++ [newRec],
           nextId := s.nextId + 1 })

/-- `POST /api/auth/logout` (`auth.routes.ts`): if a refresh token was sent,
`deleteMany` every row matching it; always answer 200 `Logged out`. -/
def logoutHandler (s : ServerState) (t : Option SignedToken) :
    Resp × ServerState :=
  match t with
  | none => (⟨ 200, RespBody.message "Logged out" ⟩, s)
  | some tok =>
    (⟨ 200, RespBody.message "Logged out" ⟩,
     { s with tokens := s.tokens.filter (fun r => decide (¬ r.token = tok)) })

/-- The `Authorization` header as the middleware sees it: absent, present
but not of the shape `Bearer ...`, or `Bearer x` where `x` either decodes
to a signed token or is garbage (`none`) that no verification accepts. -/
inductive AuthHeader where
  | absent
  | notBearer (raw : String)
  | bearer (tok : Option SignedToken)
deriving DecidableEq, Repr

/-- Outcome of the middleware: a rejection response, or control passed to
the route handler with the identity attached to the request. -/
inductive MwResult where
  | reject (status : Nat) (msg : String)
  | proceed (userId : String) (email : String)
deriving DecidableEq, Repr

/-- `authMiddleware` (`middleware/auth.middleware.ts`): missing header or
one not starting with `Bearer ` → 401 `No token provided`; otherwise verify
the extracted token with the access key — failure → 401
`Invalid or expired token`, success → attach `userId` and `userEmail` and
call `next()`.  The function performs no store operation, so the server
state it runs against is returned unchanged. -/
def authMiddleware (s : ServerState) (h : AuthHeader) (nowMs : Nat) :
    MwResult × ServerState :=
  match h with
  | AuthHeader.absent => (MwResult.reject 401 "No token provided", s)
  | AuthHeader.notBearer _ => (MwResult.reject 401 "No token provided", s)
  | AuthHeader.bearer none => (MwResult.reject 401 "Invalid or expired token", s)
  | AuthHeader.bearer (some t) =>
    match verifyAccessToken t nowMs with
    | none => (MwResult.reject 401 "Invalid or expired token", s)
    | some p => (MwResult.proceed p.userId p.email, s)

def lowerEq (a b : String) : Prop :=
  a.data.map Char.toLower = b.data.map Char.toLower

instance (a b : String) : Decidable (lowerEq a b) := by
  unfold lowerEq
  infer_instance

def caseState : ServerState :=
  { users := [⟨ "u0", "a@x.com", StoredPassword.bcrypt 0 12 "password1" ⟩],
    tokens := [], nextId := 1 }

def cxToken : SignedToken := ⟨ "u0", "a@x.com", 0, refreshTTLsec, Key.refresh ⟩

def cxState : ServerState :=
  { users := [], tokens := [⟨ 0, cxToken, "u0", refreshTTLms ⟩], nextId := 1 }

def cx5State : ServerState := { users := [], tokens := [], nextId := 0 }

def cx5Tampered : SignedToken := ⟨ "u0", "a@x.com", 0, refreshTTLsec, Key.access ⟩

def cx5Consumed : SignedToken := ⟨ "u0", "a@x.com", 0, refreshTTLsec, Key.refresh ⟩

structure ClientState where
  accessToken : Option SignedToken
  refreshToken : Option SignedToken
  userJson : Option (String × String)
deriving DecidableEq, Repr

def clientLogout (_ : ClientState) : ClientState := ⟨ none, none, none ⟩

inductive HttpResult where
  | ok (body : Nat)
  | err (status : Nat)
deriving DecidableEq, Repr

structure InterceptOutcome where
  result : HttpResult
  client : ClientState
  refreshCalls : Nat
  retries : List (Option SignedToken)
deriving DecidableEq, Repr

def authServiceRefresh (exch : SignedToken → Option (SignedToken × SignedToken))
    (c : ClientState) : Option SignedToken × ClientState :=
  match c.refreshToken with
  | none => (none, c)
  | some rt =>
    match exch rt with
    | some (a, r) =>
      (some a, { c with accessToken := some a, refreshToken := some r })
    | none => (none, clientLogout c)

def jwtIntercept (exch : SignedToken → Option (SignedToken × SignedToken))
    (c : ClientState) (isAuthUrl : Bool)
    (next : Option SignedToken → HttpResult) : InterceptOutcome :=
  if isAuthUrl then
    { result := next none, client := c, refreshCalls := 0, retries := [] }
  else
    match next c.accessToken with
    | HttpResult.ok b =>
      { result := HttpResult.ok b, client := c, refreshCalls := 0, retries := [] }
    | HttpResult.err st =>
      if st = 401 then
        match authServiceRefresh exch c with
        | (some newTok, c2) =>
          { result := next (some newTok), client := c2,
            refreshCalls := 1, retries := [some newTok] }
        | (none, c2) =>
          { result := HttpResult.err st, client := clientLogout c2,
            refreshCalls := 1, retries := [] }
      else
        { result := HttpResult.err st, client := c, refreshCalls := 0, retries := [] }

def w6Old : SignedToken := ⟨ "u0", "a@x.com", 0, 900, Key.access ⟩

def w6New : SignedToken := ⟨ "u0", "a@x.com", 5, 905, Key.access ⟩

def w6Client : ClientState := ⟨ some w6Old, some cxToken, none ⟩

def w6Exch : SignedToken → Option (SignedToken × SignedToken) :=
  fun _ => some (w6New, cxToken)

def w6Next : Option SignedToken → HttpResult :=
  fun o =>
    match o with
    | some a => if a = w6New then HttpResult.ok 7 else HttpResult.err 401
    | none => HttpResult.err 401

inductive PC where
  | start
  | find (p : TokenPayload)
  | del (p : TokenPayload) (rid : Nat)
  | create (p : TokenPayload)
  | doneOk
  | doneFail
deriving DecidableEq, Repr

structure MState where
  registry : List RefreshTokenRecord
  nextId : Nat
  procs : List PC
deriving DecidableEq, Repr

def stepProc (t : SignedToken) (now : Nat) (reg : List RefreshTokenRecord)
    (nid : Nat) : PC → PC × List RefreshTokenRecord × Nat
  | PC.start =>
    match verifyRefreshToken t now with
    | none => (PC.doneFail, reg, nid)
    | some p => (PC.find p, reg, nid)
  | PC.find p =>
    match reg.find? (fun r => decide (r.token = t)) with
    | none => (PC.doneFail, reg, nid)
    | some stored =>
      if stored.expiresAt < now then (PC.doneFail, reg, nid)
      else (PC.del p stored.id, reg, nid)
  | PC.del p rid =>
    if reg.any (fun r => decide (r.id = rid)) then
      (PC.create p, reg.filter (fun r => decide (¬ r.id = rid)), nid)
    else
      (PC.doneFail, reg, nid)
  | PC.create p =>
    if reg.any (fun r => decide (r.token = generateRefreshToken p now)) then
      (PC.doneFail, reg, nid)
    else
      (PC.doneOk,
       reg ++ [⟨ nid, generateRefreshToken p now, p.userId, now + refreshTTLms ⟩],
       nid + 1)
  | PC.doneOk => (PC.doneOk, reg, nid)
  | PC.doneFail => (PC.doneFail, reg, nid)

def mstep (t : SignedToken) (now : Nat) (s : MState) (i : Nat) : MState :=
  match s.procs.get? i with
  | none => s
  | some pc =>
    { registry := (stepProc t now s.registry s.nextId pc).2.1,
      nextId := (stepProc t now s.registry s.nextId pc).2.2,
      procs := s.procs.set i (stepProc t now s.registry s.nextId pc).1 }

def mrun (t : SignedToken) (now : Nat) (s : MState) (sched : List Nat) : MState :=
  sched.foldl (mstep t now) s

def cnt (f : PC → Bool) : List PC → Nat
  | [] => 0
  | pc :: rest => (if f pc then 1 else 0) + cnt f rest

def isOk : PC → Bool
  | PC.doneOk => true
  | _ => false

def isFail : PC → Bool
  | PC.doneFail => true
  | _ => false

def isWinner : PC → Bool
  | PC.create _ => true
  | PC.doneOk => true
  | _ => false

def isCreate : PC → Bool
  | PC.create _ => true
  | _ => false

def allDone (l : List PC) : Prop :=
  ∀ pc ∈ l, pc = PC.doneOk ∨ pc = PC.doneFail

instance (l : List PC) : Decidable (allDone l) := by
  unfold allDone
  infer_instance

def c2Init : MState :=
  { registry := [⟨ 0, cxToken, "u0", refreshTTLms ⟩], nextId := 1,
    procs := [PC.start, PC.start] }

def pcOK (pay : TokenPayload) (id0 : Nat) : PC → Prop
  | PC.start => True
  | PC.find p => p = pay
  | PC.del p rid => p = pay ∧ rid = id0
  | PC.create p => p = pay
  | PC.doneOk => True
  | PC.doneFail => True

def rotTok (t : SignedToken) (n : Nat) : SignedToken :=
  generateRefreshToken ⟨ t.userId, t.email ⟩ n

structure Inv (t : SignedToken) (n : Nat) (rec0 : RefreshTokenRecord)
    (s : MState) : Prop where
  idBound : ∀ r ∈ s.registry, r.id < s.nextId
  id0Bound : rec0.id < s.nextId
  tokUnique : ∀ r ∈ s.registry, r.token = t → r = rec0
  idUnique : ∀ r ∈ s.registry, r.id = rec0.id → r = rec0
  pcs : ∀ pc ∈ s.procs, pcOK ⟨ t.userId, t.email ⟩ rec0.id pc
  winner : cnt isWinner s.procs + (if rec0 ∈ s.registry then 1 else 0) = 1
  rotCount : (s.registry.filter
      (fun r => decide (r.token = rotTok t n))).length = cnt isOk s.procs
  failGone : 0 < cnt isFail s.procs → rec0 ∉ s.registry

theorem verifyRefreshToken_eq_some {t : SignedToken} {n : Nat} {p : TokenPayload}
    (h : verifyRefreshToken t n = some p) :
    p = ⟨ t.userId, t.email ⟩ ∧ t.key = Key.refresh ∧ n / 1000 < t.exp := by
  unfold verifyRefreshToken at h
  split at h
  · cases h
    exact ⟨ rfl, by assumption ⟩
  · cases h

theorem filter_len_le_one_eq {α : Type} (p : α → Bool) (l : List α)
    (h : (l.filter p).length ≤ 1)
    (a b : α) (ha : a ∈ l) (hpa : p a = true) (hb : b ∈ l) (hpb : p b = true) :
    a = b := by
  have ha2 : a ∈ l.filter p := List.mem_filter.mpr ⟨ ha, hpa ⟩
  have hb2 : b ∈ l.filter p := List.mem_filter.mpr ⟨ hb, hpb ⟩
  cases hf : l.filter p with
  | nil => rw [hf] at ha2; cases ha2
  | cons x xs =>
    cases xs with
    | nil =>
      rw [hf] at ha2 hb2
      have hax : a = x := by simpa using ha2
      have hbx : b = x := by simpa using hb2
      rw [hax, hbx]
    | cons y ys =>
      rw [hf] at h
      simp at h

theorem find?_append_of_none {α : Type} (p : α → Bool) (l1 l2 : List α)
    (h : l1.find? p = none) : (l1 ++ l2).find? p = l2.find? p := by
  induction l1 with
  | nil => rfl
  | cons x xs ih =>
    cases hx : p x with
    | false =>
      rw [List.find?_cons_of_neg _ (by simp [hx])] at h
      rw [List.cons_append, List.find?_cons_of_neg _ (by simp [hx])]
      exact ih h
    | true =>
      rw [List.find?_cons_of_pos _ hx] at h
      cases h

theorem cnt_set {f : PC → Bool} {l : List PC} {i : Nat} {pc : PC} (x : PC)
    (h : l.get? i = some pc) :
    cnt f (l.set i x) + (if f pc then 1 else 0)
      = cnt f l + (if f x then 1 else 0) := by
  induction l generalizing i with
  | nil => cases h
  | cons hd tl ih =>
    cases i with
    | zero =>
      cases h
      simp only [List.set]
      unfold cnt
      omega
    | succ j =>
      simp only [List.get?] at h
      simp only [List.set]
      unfold cnt
      have := ih h
      omega

theorem cnt_of_all_false {f : PC → Bool} {l : List PC}
    (h : ∀ x ∈ l, f x = false) : cnt f l = 0 := by
  induction l with
  | nil => rfl
  | cons hd tl ih =>
    unfold cnt
    rw [h hd (List.mem_cons_self hd tl)]
    simp only [Bool.false_eq_true, reduceIte]
    have := ih (fun x hx => h x (List.mem_cons_of_mem hd hx))
    omega

theorem cnt_partition_done {l : List PC} (h : allDone l) :
    cnt isOk l + cnt isFail l = l.length := by
  induction l with
  | nil => rfl
  | cons hd tl ih =>
    unfold cnt
    have hh := h hd (List.mem_cons_self hd tl)
    have ht := ih (fun pc hpc => h pc (List.mem_cons_of_mem hd hpc))
    rcases hh with hh | hh
    · rw [hh]
      simp only [isOk, isFail, List.length_cons, if_true, if_false,
        Bool.false_eq_true, reduceIte]
      omega
    · rw [hh]
      simp only [isOk, isFail, List.length_cons, if_true, if_false,
        Bool.false_eq_true, reduceIte]
      omega

theorem cnt_congr_mem {f g : PC → Bool} {l : List PC}
    (h : ∀ x ∈ l, f x = g x) : cnt f l = cnt g l := by
  induction l with
  | nil => rfl
  | cons hd tl ih =>
    unfold cnt
    rw [h hd (List.mem_cons_self hd tl),
      ih (fun x hx => h x (List.mem_cons_of_mem hd hx))]

theorem cnt_pos {f : PC → Bool} {l : List PC} {i : Nat} {pc : PC}
    (h : l.get? i = some pc) (hf : f pc = true) : 0 < cnt f l := by
  induction l generalizing i with
  | nil => cases h
  | cons hd tl ih =>
    cases i with
    | zero =>
      cases h
      unfold cnt
      rw [hf]
      simp only [reduceIte]
      omega
    | succ j =>
      simp only [List.get?] at h
      unfold cnt
      have := ih h
      omega

theorem cnt_pair_le {f g h : PC → Bool} {l : List PC}
    (hf : ∀ x, f x = true → h x = true)
    (hg : ∀ x, g x = true → h x = true)
    (hfg : ∀ x, ¬ (f x = true ∧ g x = true)) :
    cnt f l + cnt g l ≤ cnt h l := by
  induction l with
  | nil =>
    unfold cnt
    omega
  | cons hd tl ih =>
    unfold cnt
    cases hfx : f hd with
    | true =>
      rw [hf hd hfx]
      cases hgx : g hd with
      | true => exact absurd ⟨ hfx, hgx ⟩ (hfg hd)
      | false =>
        simp only [reduceIte, Bool.false_eq_true]
        omega
    | false =>
      cases hgx : g hd with
      | true =>
        rw [hg hd hgx]
        simp only [reduceIte, Bool.false_eq_true]
        omega
      | false =>
        cases hhx : h hd with
        | true =>
          simp only [reduceIte, Bool.false_eq_true]
          omega
        | false =>
          simp only [reduceIte, Bool.false_eq_true]
          omega

theorem verify_ok {t : SignedToken} {n : Nat} (hkey : t.key = Key.refresh)
    (hjwt : n / 1000 < t.exp) :
    verifyRefreshToken t n = some ⟨ t.userId, t.email ⟩ := by
  unfold verifyRefreshToken
  rw [if_pos ⟨ hkey, hjwt ⟩]

theorem rotTok_ne {t : SignedToken} {n : Nat} (hrot : ¬ t.iat = n / 1000) :
    ¬ rotTok t n = t := by
  intro h
  apply hrot
  rw [← h]
  rfl

theorem cnt_set_eq (f : PC → Bool) {l : List PC} {i : Nat} {pc : PC} (x : PC)
    (h : l.get? i = some pc) (hfx : f pc = f x) :
    cnt f (l.set i x) = cnt f l := by
  have hcs := cnt_set (f := f) x h
  rw [hfx] at hcs
  omega

theorem cnt_set_succ (f : PC → Bool) {l : List PC} {i : Nat} {pc : PC} (x : PC)
    (h : l.get? i = some pc) (hpc : f pc = false) (hx : f x = true) :
    cnt f (l.set i x) = cnt f l + 1 := by
  have hcs := cnt_set (f := f) x h
  rw [hpc, hx] at hcs
  simp only [Bool.false_eq_true, reduceIte] at hcs
  omega

theorem inv_mstep (t : SignedToken) (n : Nat) (rec0 : RefreshTokenRecord)
    (hkey : t.key = Key.refresh) (hjwt : n / 1000 < t.exp)
    (htok : rec0.token = t) (hexp : ¬ rec0.expiresAt < n)
    (hrot : ¬ t.iat = n / 1000)
    (s : MState) (i : Nat) (hinv : Inv t n rec0 s) :
    Inv t n rec0 (mstep t n s i) := by
  unfold mstep
  cases hget : s.procs.get? i with
  | none => exact hinv
  | some pc =>
    have hmem0 : pc ∈ s.procs := List.get?_mem hget
    have hpc := hinv.pcs pc hmem0
    cases pc with
    | start =>
      simp only [stepProc, verify_ok hkey hjwt]
      exact {
        idBound := hinv.idBound
        id0Bound := hinv.id0Bound
        tokUnique := hinv.tokUnique
        idUnique := hinv.idUnique
        pcs := by
          intro pc2 h2
          rcases List.mem_or_eq_of_mem_set h2 with h3 | h3
          · exact hinv.pcs pc2 h3
          · rw [h3]; exact rfl
        winner := by
          dsimp only
          rw [cnt_set_eq isWinner (PC.find ⟨ t.userId, t.email ⟩) hget rfl]
          exact hinv.winner
        rotCount := by
          dsimp only
          rw [cnt_set_eq isOk (PC.find ⟨ t.userId, t.email ⟩) hget rfl]
          exact hinv.rotCount
        failGone := by
          dsimp only
          rw [cnt_set_eq isFail (PC.find ⟨ t.userId, t.email ⟩) hget rfl]
          exact hinv.failGone }
    | find p =>
      have hp : p = (⟨ t.userId, t.email ⟩ : TokenPayload) := hpc
      subst hp
      simp only [stepProc]
      cases hfind : s.registry.find? (fun r => decide (r.token = t)) with
      | none =>
        have hnotin : rec0 ∉ s.registry := by
          intro hin
          have hnp := List.find?_eq_none.mp hfind rec0 hin
          simp [htok] at hnp
        exact {
          idBound := hinv.idBound
          id0Bound := hinv.id0Bound
          tokUnique := hinv.tokUnique
          idUnique := hinv.idUnique
          pcs := by
            intro pc2 h2
            rcases List.mem_or_eq_of_mem_set h2 with h3 | h3
            · exact hinv.pcs pc2 h3
            · rw [h3]; exact trivial
          winner := by
            dsimp only
            rw [cnt_set_eq isWinner PC.doneFail hget rfl]
            exact hinv.winner
          rotCount := by
            dsimp only
            rw [cnt_set_eq isOk PC.doneFail hget rfl]
            exact hinv.rotCount
          failGone := by
            dsimp only
            intro _
            exact hnotin }
      | some stored =>
        have hsmem : stored ∈ s.registry := List.mem_of_find?_eq_some hfind
        have hstok : stored.token = t := by
          have hfs := List.find?_some hfind
          simpa using hfs
        have hseq : stored = rec0 := hinv.tokUnique stored hsmem hstok
        dsimp only
        rw [if_neg (by rw [hseq]; exact hexp)]
        exact {
          idBound := hinv.idBound
          id0Bound := hinv.id0Bound
          tokUnique := hinv.tokUnique
          idUnique := hinv.idUnique
          pcs := by
            intro pc2 h2
            rcases List.mem_or_eq_of_mem_set h2 with h3 | h3
            · exact hinv.pcs pc2 h3
            · rw [h3]
              exact ⟨ rfl, by rw [hseq] ⟩
          winner := by
            dsimp only
            rw [cnt_set_eq isWinner
              (PC.del ⟨ t.userId, t.email ⟩ stored.id) hget rfl]
            exact hinv.winner
          rotCount := by
            dsimp only
            rw [cnt_set_eq isOk
              (PC.del ⟨ t.userId, t.email ⟩ stored.id) hget rfl]
            exact hinv.rotCount
          failGone := by
            dsimp only
            rw [cnt_set_eq isFail
              (PC.del ⟨ t.userId, t.email ⟩ stored.id) hget rfl]
            exact hinv.failGone }
    | del p rid =>
      obtain ⟨ hp, hrid ⟩ := hpc
      subst hp
      subst hrid
      simp only [stepProc]
      by_cases hany : s.registry.any (fun r => decide (r.id = rec0.id)) = true
      · obtain ⟨ r0, hr0mem, hr0id ⟩ := List.any_eq_true.mp hany
        have hr0 : r0 = rec0 :=
          hinv.idUnique r0 hr0mem (of_decide_eq_true hr0id)
        have hmemrec : rec0 ∈ s.registry := hr0 ▸ hr0mem
        have hwin0 : cnt isWinner s.procs = 0 := by
          have hw := hinv.winner
          rw [if_pos hmemrec] at hw
          omega
        have hnotin2 : rec0 ∉ s.registry.filter
            (fun r => decide (¬ r.id = rec0.id)) := by
          intro hin
          have hq := (List.mem_filter.mp hin).2
          simp at hq
        rw [if_pos hany]
        exact {
          idBound := by
            intro r hr
            exact hinv.idBound r (List.mem_filter.mp hr).1
          id0Bound := hinv.id0Bound
          tokUnique := by
            intro r hr
            exact hinv.tokUnique r (List.mem_filter.mp hr).1
          idUnique := by
            intro r hr
            exact hinv.idUnique r (List.mem_filter.mp hr).1
          pcs := by
            intro pc2 h2
            rcases List.mem_or_eq_of_mem_set h2 with h3 | h3
            · exact hinv.pcs pc2 h3
            · rw [h3]; exact rfl
          winner := by
            dsimp only
            rw [cnt_set_succ isWinner
              (PC.create ⟨ t.userId, t.email ⟩) hget rfl rfl]
            rw [if_neg hnotin2]
            omega
          rotCount := by
            dsimp only
            rw [cnt_set_eq isOk
              (PC.create ⟨ t.userId, t.email ⟩) hget rfl]
            have hcong : List.filter
                (fun a => decide (a.token = rotTok t n) &&
                  decide (¬ a.id = rec0.id)) s.registry
                = List.filter (fun a => decide (a.token = rotTok t n))
                    s.registry := by
              apply List.filter_congr
              intro x hx
              cases hrx : decide (x.token = rotTok t n) with
              | false => simp [hrx]
              | true =>
                simp only [hrx, Bool.true_and]
                have hxt : x.token = rotTok t n := of_decide_eq_true hrx
                by_cases hxid : x.id = rec0.id
                · have hxeq : x = rec0 := hinv.idUnique x hx hxid
                  rw [hxeq] at hxt
                  rw [htok] at hxt
                  exact absurd hxt.symm (rotTok_ne hrot)
                · simp [hxid]
            rw [List.filter_filter, hcong]
            exact hinv.rotCount
          failGone := by
            intro _
            exact hnotin2 }
      · have hnotin : rec0 ∉ s.registry := by
          intro hin
          exact hany (List.any_eq_true.mpr ⟨ rec0, hin, by simp ⟩)
        rw [if_neg hany]
        exact {
          idBound := hinv.idBound
          id0Bound := hinv.id0Bound
          tokUnique := hinv.tokUnique
          idUnique := hinv.idUnique
          pcs := by
            intro pc2 h2
            rcases List.mem_or_eq_of_mem_set h2 with h3 | h3
            · exact hinv.pcs pc2 h3
            · rw [h3]; exact trivial
          winner := by
            dsimp only
            rw [cnt_set_eq isWinner PC.doneFail hget rfl]
            exact hinv.winner
          rotCount := by
            dsimp only
            rw [cnt_set_eq isOk PC.doneFail hget rfl]
            exact hinv.rotCount
          failGone := by
            intro _
            exact hnotin }
    | create p =>
      have hp : p = (⟨ t.userId, t.email ⟩ : TokenPayload) := hpc
      subst hp
      simp only [stepProc]
      have hw1 : 0 < cnt isWinner s.procs := cnt_pos hget rfl
      have hmem : rec0 ∉ s.registry := by
        intro hmem
        have hw := hinv.winner
        rw [if_pos hmem] at hw
        omega
      have hcnt1 : cnt isWinner s.procs = 1 := by
        have hw := hinv.winner
        rw [if_neg hmem] at hw
        omega
      have hcr : 0 < cnt isCreate s.procs := cnt_pos hget rfl
      have hok0 : cnt isOk s.procs = 0 := by
        have hle : cnt isOk s.procs + cnt isCreate s.procs
            ≤ cnt isWinner s.procs := by
          apply cnt_pair_le
          · intro x hx
            cases x <;> simp_all [isOk, isWinner]
          · intro x hx
            cases x <;> simp_all [isCreate, isWinner]
          · intro x hx
            cases x <;> simp_all [isOk, isCreate]
        omega
      have hrots : (s.registry.filter
          (fun r => decide (r.token = rotTok t n))).length = 0 := by
        rw [hinv.rotCount, hok0]
      have hnrot : ∀ r ∈ s.registry,
          ¬ r.token = generateRefreshToken (⟨ t.userId, t.email ⟩ :
            TokenPayload) n := by
        intro r hr hcontra
        have hfmem : r ∈ s.registry.filter
            (fun x => decide (x.token = rotTok t n)) :=
          List.mem_filter.mpr ⟨ hr, by simp [rotTok, hcontra] ⟩
        rw [List.length_eq_zero.mp hrots] at hfmem
        cases hfmem
      have hany : (s.registry.any (fun r =>
          decide (r.token = generateRefreshToken (⟨ t.userId, t.email ⟩ :
            TokenPayload) n))) = false := by
        rw [← Bool.not_eq_true]
        intro hcontra
        obtain ⟨ r, hr, hrt ⟩ := List.any_eq_true.mp hcontra
        exact hnrot r hr (of_decide_eq_true hrt)
      rw [if_neg (by rw [hany]; exact Bool.false_ne_true)]
      have hnotin2 : rec0 ∉ s.registry ++
          [(⟨ s.nextId, generateRefreshToken (⟨ t.userId, t.email ⟩ :
              TokenPayload) n, t.userId, n + refreshTTLms ⟩ :
            RefreshTokenRecord)] := by
        intro hin
        rcases List.mem_append.mp hin with h1 | h1
        · exact hmem h1
        · have h2 : rec0 = (⟨ s.nextId, generateRefreshToken
              (⟨ t.userId, t.email ⟩ : TokenPayload) n, t.userId,
              n + refreshTTLms ⟩ : RefreshTokenRecord) := by simpa using h1
          have h3 : rec0.id = s.nextId := by rw [h2]
          have h4 := hinv.id0Bound
          omega
      exact {
        idBound := by
          dsimp only
          intro r hr
          rcases List.mem_append.mp hr with h1 | h1
          · have h5 := hinv.idBound r h1
            omega
          · have h2 : r = (⟨ s.nextId, generateRefreshToken
                (⟨ t.userId, t.email ⟩ : TokenPayload) n, t.userId,
                n + refreshTTLms ⟩ : RefreshTokenRecord) := by simpa using h1
            rw [h2]
            dsimp only
            omega
        id0Bound := by
          dsimp only
          have h5 := hinv.id0Bound
          omega
        tokUnique := by
          intro r hr hrt
          rcases List.mem_append.mp hr with h1 | h1
          · exact hinv.tokUnique r h1 hrt
          · have h2 : r = (⟨ s.nextId, generateRefreshToken
                (⟨ t.userId, t.email ⟩ : TokenPayload) n, t.userId,
                n + refreshTTLms ⟩ : RefreshTokenRecord) := by simpa using h1
            rw [h2] at hrt
            exact absurd hrt (rotTok_ne hrot)
        idUnique := by
          intro r hr hrid
          rcases List.mem_append.mp hr with h1 | h1
          · exact hinv.idUnique r h1 hrid
          · have h2 : r = (⟨ s.nextId, generateRefreshToken
                (⟨ t.userId, t.email ⟩ : TokenPayload) n, t.userId,
                n + refreshTTLms ⟩ : RefreshTokenRecord) := by simpa using h1
            rw [h2] at hrid
            dsimp only at hrid
            have h4 := hinv.id0Bound
            exact absurd hrid (by omega)
        pcs := by
          intro pc2 h2
          rcases List.mem_or_eq_of_mem_set h2 with h3 | h3
          · exact hinv.pcs pc2 h3
          · rw [h3]; exact trivial
        winner := by
          dsimp only
          rw [cnt_set_eq isWinner PC.doneOk hget rfl]
          rw [if_neg hnotin2]
          omega
        rotCount := by
          dsimp only
          rw [cnt_set_succ isOk PC.doneOk hget rfl rfl]
          rw [List.filter_append]
          rw [List.length_append]
          rw [hrots]
          have hsingle : (List.filter (fun r => decide (r.token = rotTok t n))
              [(⟨ s.nextId, generateRefreshToken (⟨ t.userId, t.email ⟩ :
                  TokenPayload) n, t.userId, n + refreshTTLms ⟩ :
                RefreshTokenRecord)]).length = 1 := by
            simp [rotTok]
          rw [hsingle, hok0]
        failGone := by
          intro _
          exact hnotin2 }
    | doneOk =>
      simp only [stepProc]
      exact {
        idBound := hinv.idBound
        id0Bound := hinv.id0Bound
        tokUnique := hinv.tokUnique
        idUnique := hinv.idUnique
        pcs := by
          intro pc2 h2
          rcases List.mem_or_eq_of_mem_set h2 with h3 | h3
          · exact hinv.pcs pc2 h3
          · rw [h3]; exact trivial
        winner := by
          dsimp only
          rw [cnt_set_eq isWinner PC.doneOk hget rfl]
          exact hinv.winner
        rotCount := by
          dsimp only
          rw [cnt_set_eq isOk PC.doneOk hget rfl]
          exact hinv.rotCount
        failGone := by
          dsimp only
          rw [cnt_set_eq isFail PC.doneOk hget rfl]
          exact hinv.failGone }
    | doneFail =>
      simp only [stepProc]
      exact {
        idBound := hinv.idBound
        id0Bound := hinv.id0Bound
        tokUnique := hinv.tokUnique
        idUnique := hinv.idUnique
        pcs := by
          intro pc2 h2
          rcases List.mem_or_eq_of_mem_set h2 with h3 | h3
          · exact hinv.pcs pc2 h3
          · rw [h3]; exact trivial
        winner := by
          dsimp only
          rw [cnt_set_eq isWinner PC.doneFail hget rfl]
          exact hinv.winner
        rotCount := by
          dsimp only
          rw [cnt_set_eq isOk PC.doneFail hget rfl]
          exact hinv.rotCount
        failGone := by
          dsimp only
          rw [cnt_set_eq isFail PC.doneFail hget rfl]
          exact hinv.failGone }

theorem inv_init (t : SignedToken) (n : Nat) (rec0 : RefreshTokenRecord)
    (nid0 np : Nat) (htok : rec0.token = t) (hid : rec0.id < nid0)
    (hrot : ¬ t.iat = n / 1000) :
    Inv t n rec0 ⟨ [rec0], nid0, List.replicate np PC.start ⟩ := by
  refine {
    idBound := ?_
    id0Bound := hid
    tokUnique := ?_
    idUnique := ?_
    pcs := ?_
    winner := ?_
    rotCount := ?_
    failGone := ?_ }
  · intro r hr
    have hre : r = rec0 := by simpa using hr
    rw [hre]
    exact hid
  · intro r hr _
    simpa using hr
  · intro r hr _
    simpa using hr
  · intro pc hpc
    rw [List.eq_of_mem_replicate hpc]
    exact trivial
  · have hz : cnt isWinner (List.replicate np PC.start) = 0 := by
      apply cnt_of_all_false
      intro x hx
      rw [List.eq_of_mem_replicate hx]
      rfl
    rw [hz]
    simp
  · have hz : cnt isOk (List.replicate np PC.start) = 0 := by
      apply cnt_of_all_false
      intro x hx
      rw [List.eq_of_mem_replicate hx]
      rfl
    rw [hz]
    have hne : ¬ rec0.token = rotTok t n := by
      rw [htok]
      intro hcontra
      exact rotTok_ne hrot hcontra.symm
    simp [hne]
  · have hz : cnt isFail (List.replicate np PC.start) = 0 := by
      apply cnt_of_all_false
      intro x hx
      rw [List.eq_of_mem_replicate hx]
      rfl
    rw [hz]
    intro hcontra
    exact absurd hcontra (by omega)

theorem inv_mrun (t : SignedToken) (n : Nat) (rec0 : RefreshTokenRecord)
    (hkey : t.key = Key.refresh) (hjwt : n / 1000 < t.exp)
    (htok : rec0.token = t) (hexp : ¬ rec0.expiresAt < n)
    (hrot : ¬ t.iat = n / 1000)
    (sched : List Nat) (s : MState) (hinv : Inv t n rec0 s) :
    Inv t n rec0 (mrun t n s sched) := by
  induction sched generalizing s with
  | nil => exact hinv
  | cons j rest ih =>
    exact ih (mstep t n s j)
      (inv_mstep t n rec0 hkey hjwt htok hexp hrot s j hinv)

theorem mrun_length (t : SignedToken) (n : Nat) (sched : List Nat)
    (s : MState) : (mrun t n s sched).procs.length = s.procs.length := by
  induction sched generalizing s with
  | nil => rfl
  | cons j rest ih =>
    rw [mrun, List.foldl_cons, ← mrun]
    rw [ih (mstep t n s j)]
    unfold mstep
    cases hget : s.procs.get? j with
    | none => rfl
    | some pc => exact List.length_set s.procs j _

theorem inv_final (t : SignedToken) (n : Nat) (rec0 : RefreshTokenRecord)
    (s : MState) (hinv : Inv t n rec0 s) (hdone : allDone s.procs)
    (hlen : 0 < s.procs.length) :
    cnt isOk s.procs = 1 ∧ cnt isFail s.procs = s.procs.length - 1 := by
  have hWO : cnt isWinner s.procs = cnt isOk s.procs := by
    apply cnt_congr_mem
    intro x hx
    rcases hdone x hx with h | h <;> rw [h] <;> rfl
  have hpart := cnt_partition_done hdone
  by_cases hm : rec0 ∈ s.registry
  · have hw := hinv.winner
    rw [if_pos hm] at hw
    have hfail : 0 < cnt isFail s.procs := by omega
    exact absurd hm (hinv.failGone hfail)
  · have hw := hinv.winner
    rw [if_neg hm] at hw
    omega

/-- Claim C1, counterexample: a refresh token minted at JWT second 0 and
exchanged at 500 ms rotates into the *identical* token string (`jwt.sign`
is deterministic and stamps the same `iat`), so the response returns the
very token that was presented, and a later exchange of the original token
at 900 ms succeeds again instead of failing 401. -/
theorem refresh_same_second_reissue_cx :
    (refreshHandler cxState cxToken 500).1.status = 200 ∧
    (refreshHandler cxState cxToken 500).1.body
      = RespBody.refreshSuccess (generateAccessToken ⟨ "u0", "a@x.com" ⟩ 500) cxToken ∧
    (refreshHandler (refreshHandler cxState cxToken 500).2 cxToken 900).1.status
      = 200 := by
  decide

/-- Claim C1, amended: provided the exchange happens at a JWT second
different from the token's `iat` (so the rotated token is a different
string), a successful exchange returns a refresh token different from the
presented one, and — when the registry holds at most one record for the
token — every later exchange of the original token fails with 401;
moreover exchange fails with 401 whenever every registry record for the
token (possibly none) has a stored expiry strictly in the past. -/
theorem refresh_single_use
    (s : ServerState) (t : SignedToken) (n : Nat) :
    (¬ t.iat = n / 1000 →
      ∀ a r, (refreshHandler s t n).1.body = RespBody.refreshSuccess a r → ¬ r = t)
    ∧ (¬ t.iat = n / 1000 →
      (s.tokens.filter (fun x => decide (x.token = t))).length ≤ 1 →
      (refreshHandler s t n).1.status = 200 →
      ∀ n2, (refreshHandler (refreshHandler s t n).2 t n2).1.status = 401)
    ∧ ((∀ x ∈ s.tokens, x.token = t → x.expiresAt < n) →
      (refreshHandler s t n).1.status = 401) := by
  refine ⟨ ?_, ?_, ?_ ⟩
  · intro hiat a r hbody
    unfold refreshHandler at hbody
    cases hv : verifyRefreshToken t n with
    | none => simp only [hv] at hbody; simp at hbody
    | some payload =>
      simp only [hv] at hbody
      cases hfind : s.tokens.find? (fun x => decide (x.token = t)) with
      | none => simp only [hfind] at hbody; simp at hbody
      | some stored =>
        simp only [hfind] at hbody
        by_cases hexp : stored.expiresAt < n
        · rw [if_pos hexp] at hbody
          simp at hbody
        · rw [if_neg hexp] at hbody
          simp only [RespBody.refreshSuccess.injEq] at hbody
          intro hrt
          apply hiat
          rw [← hrt, ← hbody.2]
          rfl
  · intro hiat huniq hs n2
    unfold refreshHandler at hs ⊢
    cases hv : verifyRefreshToken t n with
    | none => simp only [hv] at hs; simp at hs
    | some payload =>
      simp only [hv] at hs ⊢
      cases hfind : s.tokens.find? (fun x => decide (x.token = t)) with
      | none => simp only [hfind] at hs; simp at hs
      | some stored =>
        simp only [hfind] at hs ⊢
        by_cases hexp : stored.expiresAt < n
        · rw [if_pos hexp] at hs
          simp at hs
        · rw [if_neg hexp]
          have hmem : stored ∈ s.tokens := List.mem_of_find?_eq_some hfind
          have hstok : stored.token = t := by
            have := List.find?_some hfind
            simpa using this
          have hnone : (List.filter (fun r => decide (¬ r.id = stored.id)) s.tokens
              ++ ([⟨ s.nextId, generateRefreshToken payload n, payload.userId,
                    n + refreshTTLms ⟩] : List RefreshTokenRecord)).find?
                (fun x => decide (x.token = t)) = none := by
            rw [List.find?_eq_none]
            intro x hx
            rcases List.mem_append.mp hx with hx1 | hx2
            · rcases List.mem_filter.mp hx1 with ⟨ hxmem, hxid ⟩
              intro hxt
              have hxeq : x = stored :=
                filter_len_le_one_eq _ _ huniq x stored hxmem hxt hmem
                  (by simp [hstok])
              rw [hxeq] at hxid
              simp at hxid
            · have hxeq : x = (⟨ s.nextId, generateRefreshToken payload n,
                  payload.userId, n + refreshTTLms ⟩ : RefreshTokenRecord) := by
                simpa using hx2
              intro hxt
              apply hiat
              have hxt2 : x.token = t := of_decide_eq_true hxt
              rw [hxeq] at hxt2
              rw [← hxt2]
              rfl
          cases hv2 : verifyRefreshToken t n2 with
          | none => rfl
          | some payload2 =>
            simp only [hv2, hnone]
  · intro hall
    unfold refreshHandler
    cases hv : verifyRefreshToken t n with
    | none => rfl
    | some payload =>
      simp only [hv]
      cases hfind : s.tokens.find? (fun x => decide (x.token = t)) with
      | none => rfl
      | some stored =>
        simp only [hfind]
        have hmem : stored ∈ s.tokens := List.mem_of_find?_eq_some hfind
        have hstok : stored.token = t := by
          have := List.find?_some hfind
          simpa using this
        rw [if_pos (hall stored hmem hstok)]

/-- Claim C2, counterexample: an interleaving of two concurrent exchange
calls presenting the same token, run in the same JWT second as the
token's `iat`, in which BOTH calls succeed: the winner reinserts the same
token string, and the second call then finds and consumes it. -/
theorem refresh_race_two_winners_cx :
    allDone (mrun cxToken 500 c2Init [0, 0, 0, 0, 1, 1, 1, 1]).procs ∧
    cnt isOk (mrun cxToken 500 c2Init [0, 0, 0, 0, 1, 1, 1, 1]).procs = 2 := by
  decide

/-- Claim C2, amended: the retire step is a conditional delete-by-id
(Prisma `delete` throws if the row is gone, caught as 401) executed as a
separate operation from the find and the insert, not a single atomic
retire-and-replace; still, for every interleaving of N concurrent
exchange calls presenting the same live token, provided the run happens
at a JWT second different from the token's `iat` (so the replacement
token differs from the presented one), every completed schedule has
exactly one succeeding call and N-1 calls failing with 401. -/
theorem refresh_race_exactly_one
    (t : SignedToken) (rec0 : RefreshTokenRecord) (n nid0 np : Nat)
    (sched : List Nat)
    (hkey : t.key = Key.refresh) (hjwt : n / 1000 < t.exp)
    (htok : rec0.token = t) (hexp : ¬ rec0.expiresAt < n)
    (hid : rec0.id < nid0) (hrot : ¬ t.iat = n / 1000) (hnp : 0 < np)
    (hdone : allDone
      (mrun t n ⟨ [rec0], nid0, List.replicate np PC.start ⟩ sched).procs) :
    cnt isOk
        (mrun t n ⟨ [rec0], nid0, List.replicate np PC.start ⟩ sched).procs
      = 1 ∧
    cnt isFail
        (mrun t n ⟨ [rec0], nid0, List.replicate np PC.start ⟩ sched).procs
      = np - 1 := by
  have hinv := inv_mrun t n rec0 hkey hjwt htok hexp hrot sched
    ⟨ [rec0], nid0, List.replicate np PC.start ⟩
    (inv_init t n rec0 nid0 np htok hid hrot)
  have hlen := mrun_length t n sched
    ⟨ [rec0], nid0, List.replicate np PC.start ⟩
  have hlen2 : (mrun t n ⟨ [rec0], nid0,
      List.replicate np PC.start ⟩ sched).procs.length = np := by
    rw [hlen]
    exact List.length_replicate np PC.start
  have hfin := inv_final t n rec0 _ hinv hdone (by omega)
  rw [hlen2] at hfin
  exact hfin

/-- Witness for the amended C2 theorem at a concrete two-process
schedule whose hypotheses are discharged by evaluation. -/
theorem refresh_race_exactly_one_witness :
    allDone (mrun cxToken 5000
        ⟨ [⟨ 0, cxToken, "u0", refreshTTLms ⟩], 1,
          List.replicate 2 PC.start ⟩ [0, 1, 0, 1, 0, 1, 0, 1]).procs ∧
    cnt isOk (mrun cxToken 5000
        ⟨ [⟨ 0, cxToken, "u0", refreshTTLms ⟩], 1,
          List.replicate 2 PC.start ⟩ [0, 1, 0, 1, 0, 1, 0, 1]).procs = 1 ∧
    cnt isFail (mrun cxToken 5000
        ⟨ [⟨ 0, cxToken, "u0", refreshTTLms ⟩], 1,
          List.replicate 2 PC.start ⟩ [0, 1, 0, 1, 0, 1, 0, 1]).procs
      = 2 - 1 := by
  refine ⟨ by decide, ?_ ⟩
  exact refresh_race_exactly_one cxToken ⟨ 0, cxToken, "u0", refreshTTLms ⟩
    5000 1 2 [0, 1, 0, 1, 0, 1, 0, 1] (by decide) (by decide) (by decide)
    (by decide) (by decide) (by decide) (by decide) (by decide)

/-- Claim C3, counterexample: with an account registered as `a@x.com`, a
signup for `A@x.com` — equal up to letter case — is accepted with 201 and
a second account row is created: the conflict check is an exact string
lookup, not case-insensitive. -/
theorem signup_case_sensitive_cx :
    (∃ u ∈ caseState.users, lowerEq u.email "A@x.com") ∧
    (signupHandler caseState "A@x.com" "secret-pw-1" 5 0).1.status = 201 ∧
    (signupHandler caseState "A@x.com" "secret-pw-1" 5 0).2.users.length = 2 := by
  decide

/-- Claim C3, amended: signup conflicts are detected by exact
(case-sensitive) email equality: a first signup for an email no existing
account matches exactly returns 201 and stores a bcrypt cost-12 salted
hash (never the plaintext), exactly one account row with that email
exists afterward, and any second signup with the byte-identical email
fails 409 `Email already registered` leaving the store unchanged. -/
theorem signup_conflict_exact_match
    (s : ServerState) (e p : String) (salt n : Nat)
    (hfree : ∀ u ∈ s.users, ¬ u.email = e) :
    (signupHandler s e p salt n).1.status = 201
    ∧ ((signupHandler s e p salt n).2.users.filter
        (fun u => decide (u.email = e))).length = 1
    ∧ (∀ u ∈ (signupHandler s e p salt n).2.users, u.email = e →
        u.passwordHash = StoredPassword.bcrypt salt 12 p ∧
        ∀ pw, ¬ u.passwordHash = StoredPassword.plain pw)
    ∧ (∀ p2 salt2 n2,
        (signupHandler (signupHandler s e p salt n).2 e p2 salt2 n2).1
          = ⟨ 409, RespBody.errorMsg "Email already registered" ⟩ ∧
        (signupHandler (signupHandler s e p salt n).2 e p2 salt2 n2).2
          = (signupHandler s e p salt n).2) := by
  have hfind : s.users.find? (fun u => decide (u.email = e)) = none := by
    rw [List.find?_eq_none]
    intro u hu
    simpa using hfree u hu
  have hfilter : s.users.filter (fun u => decide (u.email = e)) = [] := by
    rw [List.filter_eq_nil_iff]
    intro u hu
    simpa using hfree u hu
  unfold signupHandler
  rw [hfind]
  simp only
  refine ⟨ trivial, ?_, ?_, ?_ ⟩
  · simp [List.filter_append, hfilter]
  · intro u hu hue
    rcases List.mem_append.mp hu with hu1 | hu2
    · exact absurd hue (hfree u hu1)
    · have hueq : u = (⟨ "u" ++ Nat.repr s.nextId, e, bcryptHash p 12 salt ⟩ : User) := by
        simpa using hu2
      rw [hueq]
      exact ⟨ rfl, fun pw hpl => by cases hpl ⟩
  · intro p2 salt2 n2
    rw [find?_append_of_none _ _ _ hfind]
    simp

/-- Claim C4: for every pair of failing login runs — one whose email
matches no account, one whose email matches an account but whose password
fails the bcrypt comparison — the full HTTP responses are equal, with
status 401 (both send `Invalid email or password`), so the caller cannot
tell which factor failed. -/
theorem login_enumeration_resistant
    (s1 s2 : ServerState) (e1 p1 e2 p2 : String) (n1 n2 : Nat) (u : User)
    (h1 : s1.users.find? (fun v => decide (v.email = e1)) = none)
    (h2 : s2.users.find? (fun v => decide (v.email = e2)) = some u)
    (h3 : bcryptCompare p2 u.passwordHash = false) :
    (loginHandler s1 e1 p1 n1).1 = (loginHandler s2 e2 p2 n2).1 ∧
    (loginHandler s1 e1 p1 n1).1.status = 401 := by
  unfold loginHandler
  rw [h1, h2]
  simp [h3]

/-- Claim C5, counterexample: a refresh with a token signed by the wrong
key and a refresh with a correctly signed token that has no registry
record both return 401, but with *different* bodies (`Invalid refresh
token` vs `Invalid or expired refresh token`), so the message does reveal
which verification stage failed. -/
theorem refresh_error_bodies_differ_cx :
    (refreshHandler cx5State cx5Tampered 1000).1.status = 401 ∧
    (refreshHandler cx5State cx5Consumed 1000).1.status = 401 ∧
    ¬ (refreshHandler cx5State cx5Tampered 1000).1.body
        = (refreshHandler cx5State cx5Consumed 1000).1.body := by
  decide

/-- Claim C5, amended: every refresh outcome is either 200 or a 401
carrying one of exactly two messages; all codec-level failures (bad key,
tampering, JWT expiry) return the same `Invalid refresh token` body, and
all registry-level failures (record absent, consumed, or stored expiry
passed) return the same `Invalid or expired refresh token` body — uniform
within each class, but the two classes are distinguishable. -/
theorem refresh_failure_collapse
    (s : ServerState) (t : SignedToken) (n : Nat) :
    ((refreshHandler s t n).1.status = 200 ∨
      ((refreshHandler s t n).1.status = 401 ∧
        ((refreshHandler s t n).1.body = RespBody.errorMsg "Invalid refresh token" ∨
         (refreshHandler s t n).1.body
           = RespBody.errorMsg "Invalid or expired refresh token")))
    ∧ (verifyRefreshToken t n = none →
        (refreshHandler s t n).1 = ⟨ 401, RespBody.errorMsg "Invalid refresh token" ⟩)
    ∧ (¬ verifyRefreshToken t n = none → (refreshHandler s t n).1.status = 401 →
        (refreshHandler s t n).1
          = ⟨ 401, RespBody.errorMsg "Invalid or expired refresh token" ⟩) := by
  refine ⟨ ?_, ?_, ?_ ⟩
  · unfold refreshHandler
    cases hv : verifyRefreshToken t n with
    | none => exact Or.inr ⟨ rfl, Or.inl rfl ⟩
    | some payload =>
      simp only [hv]
      cases hfind : s.tokens.find? (fun r => decide (r.token = t)) with
      | none => exact Or.inr ⟨ rfl, Or.inr rfl ⟩
      | some stored =>
        simp only [hfind]
        by_cases hexp : stored.expiresAt < n
        · rw [if_pos hexp]
          exact Or.inr ⟨ rfl, Or.inr rfl ⟩
        · rw [if_neg hexp]
          exact Or.inl rfl
  · intro hno
    unfold refreshHandler
    rw [hno]
  · intro hne hst
    unfold refreshHandler at hst ⊢
    cases hv : verifyRefreshToken t n with
    | none => exact absurd hv hne
    | some payload =>
      simp only [hv] at hst ⊢
      cases hfind : s.tokens.find? (fun r => decide (r.token = t)) with
      | none => rfl
      | some stored =>
        simp only [hfind] at hst ⊢
        by_cases hexp : stored.expiresAt < n
        · rw [if_pos hexp]
        · rw [if_neg hexp] at hst
          simp at hst

/-- Claim C6: for every non-auth request whose first attempt returns
401, the interceptor drives the refresh protocol exactly once; if a new
access token is obtained it retries the original request exactly once
with that token and returns the retry's result (the retry goes straight
to the downstream handler, so it can never trigger another refresh —
refresh invocations and retries are bounded by one on every run); if no
new token is obtained it clears all locally held credentials and
surfaces the original 401; a successful refresh stores the new pair. -/
theorem interceptor_refresh_then_retry
    (exch : SignedToken → Option (SignedToken × SignedToken))
    (c : ClientState) (next : Option SignedToken → HttpResult)
    (h401 : next c.accessToken = HttpResult.err 401) :
    (jwtIntercept exch c false next).refreshCalls = 1
    ∧ (∀ a, (authServiceRefresh exch c).1 = some a →
        (jwtIntercept exch c false next).result = next (some a) ∧
        (jwtIntercept exch c false next).retries = [some a] ∧
        (jwtIntercept exch c false next).client = (authServiceRefresh exch c).2)
    ∧ ((authServiceRefresh exch c).1 = none →
        (jwtIntercept exch c false next).result = HttpResult.err 401 ∧
        (jwtIntercept exch c false next).client = ⟨ none, none, none ⟩ ∧
        (jwtIntercept exch c false next).retries = [])
    ∧ (∀ rt a r, c.refreshToken = some rt → exch rt = some (a, r) →
        (authServiceRefresh exch c).2
          = ⟨ some a, some r, c.userJson ⟩)
    ∧ (∀ (u : Bool) (next2 : Option SignedToken → HttpResult),
        (jwtIntercept exch c u next2).refreshCalls ≤ 1 ∧
        (jwtIntercept exch c u next2).retries.length ≤ 1) := by
  refine ⟨ ?_, ?_, ?_, ?_, ?_ ⟩
  · unfold jwtIntercept
    rw [h401]
    simp only [if_neg (Bool.false_ne_true)]
    cases har : authServiceRefresh exch c with
    | mk fst snd =>
      cases fst with
      | none => simp
      | some a => simp
  · intro a ha
    unfold jwtIntercept
    rw [h401]
    cases har : authServiceRefresh exch c with
    | mk fst snd =>
      rw [har] at ha
      simp only at ha
      rw [ha] at har ⊢
      simp [har]
  · intro ha
    unfold jwtIntercept
    rw [h401]
    cases har : authServiceRefresh exch c with
    | mk fst snd =>
      rw [har] at ha
      simp only at ha
      subst ha
      simp [clientLogout]
  · intro rt a r hrt hex
    unfold authServiceRefresh
    simp only [hrt]
    rw [hex]
  · intro u next2
    cases u with
    | true => simp [jwtIntercept]
    | false =>
      cases hn : next2 c.accessToken with
      | ok b => simp [jwtIntercept, hn]
      | err st =>
        by_cases hst : st = 401
        · cases har : authServiceRefresh exch c with
          | mk fst snd =>
            cases fst with
            | none => simp [jwtIntercept, hn, hst, har]
            | some a => simp [jwtIntercept, hn, hst, har]
        · simp [jwtIntercept, hn, hst]

/-- Claim C7: the middleware leaves the server state untouched, rejects
exactly when the bearer header is missing, malformed, or the token fails
access-key verification, every rejection carries status 401, and on a
verifiable token it attaches the verified userId and email and passes
control downstream. -/
theorem gatekeeper_check
    (s : ServerState) (h : AuthHeader) (n : Nat) :
    ((authMiddleware s h n).2 = s)
    ∧ ((∃ st msg, (authMiddleware s h n).1 = MwResult.reject st msg) ↔
        (h = AuthHeader.absent ∨ (∃ raw, h = AuthHeader.notBearer raw) ∨
         h = AuthHeader.bearer none ∨
         (∃ t, h = AuthHeader.bearer (some t) ∧ verifyAccessToken t n = none)))
    ∧ (∀ st msg, (authMiddleware s h n).1 = MwResult.reject st msg → st = 401)
    ∧ (∀ t p, h = AuthHeader.bearer (some t) → verifyAccessToken t n = some p →
        (authMiddleware s h n).1 = MwResult.proceed p.userId p.email) := by
  unfold authMiddleware
  cases h with
  | absent => simp
  | notBearer raw => simp
  | bearer tok =>
    cases tok with
    | none => simp
    | some t =>
      cases hv : verifyAccessToken t n with
      | none =>
        simp only [hv]
        refine ⟨ trivial, ?_, ?_, ?_ ⟩
        · simp [hv]
        · intro st msg hst
          cases hst
          rfl
        · intro t1 p ht hp
          cases ht
          rw [hv] at hp
          cases hp
      | some p =>
        simp only [hv]
        refine ⟨ trivial, ?_, ?_, ?_ ⟩
        · simp [hv]
        · intro st msg hst
          cases hst
        · intro t1 p1 ht hp
          cases ht
          rw [hv] at hp
          cases hp
          rfl

/-- Claim C8: every successful issuance — signup 201, login 200, or
refresh 200 — appends exactly one new RefreshTokenRecord to the registry
(the rest of the table being a sublist of what was there), and the new
record's `expiresAt` is the issuance time plus the 7-day refresh TTL. -/
theorem issuance_one_record
    (s : ServerState) (e p : String) (salt n : Nat) (t : SignedToken) :
    ((signupHandler s e p salt n).1.status = 201 →
      ∃ r, (signupHandler s e p salt n).2.tokens = s.tokens ++ [r] ∧
        r.expiresAt = n + refreshTTLms)
    ∧ ((loginHandler s e p n).1.status = 200 →
      ∃ r, (loginHandler s e p n).2.tokens = s.tokens ++ [r] ∧
        r.expiresAt = n + refreshTTLms)
    ∧ ((refreshHandler s t n).1.status = 200 →
      ∃ r rest, (refreshHandler s t n).2.tokens = rest ++ [r] ∧
        rest.Sublist s.tokens ∧ r.expiresAt = n + refreshTTLms) := by
  refine ⟨ ?_, ?_, ?_ ⟩
  · intro hs
    unfold signupHandler at hs ⊢
    cases hfind : s.users.find? (fun u => decide (u.email = e)) with
    | some u => simp only [hfind] at hs; simp at hs
    | none =>
      simp only [hfind]
      exact ⟨ _, rfl, rfl ⟩
  · intro hs
    unfold loginHandler at hs ⊢
    cases hfind : s.users.find? (fun u => decide (u.email = e)) with
    | none => simp only [hfind] at hs; simp at hs
    | some u =>
      simp only [hfind] at hs ⊢
      by_cases hcmp : bcryptCompare p u.passwordHash = true
      · rw [if_pos hcmp]
        exact ⟨ _, rfl, rfl ⟩
      · rw [if_neg hcmp] at hs
        simp at hs
  · intro hs
    unfold refreshHandler at hs ⊢
    cases hv : verifyRefreshToken t n with
    | none => simp only [hv] at hs; simp at hs
    | some payload =>
      simp only [hv] at hs ⊢
      cases hfind : s.tokens.find? (fun r => decide (r.token = t)) with
      | none => simp only [hfind] at hs; simp at hs
      | some stored =>
        simp only [hfind] at hs ⊢
        by_cases hexp : stored.expiresAt < n
        · rw [if_pos hexp] at hs
          simp at hs
        · rw [if_neg hexp]
          exact ⟨ _, _, rfl, List.filter_sublist _, rfl ⟩

/-- Claim C9: logout always answers 200 `Logged out` whatever the state
and whether or not a matching record exists, and running it twice with
the same token yields exactly the same response and state as running it
once. -/
theorem logout_idempotent
    (s : ServerState) (t : Option SignedToken) :
    (logoutHandler s t).1 = ⟨ 200, RespBody.message "Logged out" ⟩ ∧
    logoutHandler (logoutHandler s t).2 t = logoutHandler s t := by
  unfold logoutHandler
  cases t with
  | none => simp
  | some tok =>
    refine ⟨ rfl, ?_ ⟩
    simp [List.filter_filter]

/-- Claim C10: whenever exchange succeeds, the two newly issued tokens
carry exactly the userId and email of the presented refresh token's
verified claims, and the replacement registry record (the appended last
row) is owned by that same userId and stores the new refresh token. -/
theorem refresh_preserves_identity
    (s : ServerState) (t : SignedToken) (n : Nat)
    (hs : (refreshHandler s t n).1.status = 200) :
    ∃ a r rcd,
      (refreshHandler s t n).1.body = RespBody.refreshSuccess a r ∧
      a.userId = t.userId ∧ a.email = t.email ∧
      r.userId = t.userId ∧ r.email = t.email ∧
      (refreshHandler s t n).2.tokens.getLast? = some rcd ∧
      rcd.userId = t.userId ∧ rcd.token = r := by
  unfold refreshHandler at hs ⊢
  cases hv : verifyRefreshToken t n with
  | none => simp only [hv] at hs; simp at hs
  | some payload =>
    have hpay := (verifyRefreshToken_eq_some hv).1
    simp only [hv] at hs ⊢
    cases hfind : s.tokens.find? (fun r => decide (r.token = t)) with
    | none => simp only [hfind] at hs; simp at hs
    | some stored =>
      simp only [hfind] at hs ⊢
      by_cases hexp : stored.expiresAt < n
      · rw [if_pos hexp] at hs
        simp at hs
      · rw [if_neg hexp]
        subst hpay
        exact ⟨ generateAccessToken ⟨ t.userId, t.email ⟩ n,
          generateRefreshToken ⟨ t.userId, t.email ⟩ n,
          ⟨ s.nextId, generateRefreshToken ⟨ t.userId, t.email ⟩ n, t.userId,
            n + refreshTTLms ⟩,
          rfl, rfl, rfl, rfl, rfl, List.getLast?_concat _, rfl, rfl ⟩

/-- Witness for the amended C1 theorem: a concrete live token exchanged at
5000 ms, after which re-exchanging the original token always fails 401. -/
theorem refresh_single_use_witness :
    (refreshHandler cxState cxToken 5000).1.status = 200 ∧
    ∀ n2, (refreshHandler (refreshHandler cxState cxToken 5000).2
      cxToken n2).1.status = 401 :=
  ⟨ by decide, (refresh_single_use cxState cxToken 5000).2.1
      (by decide) (by decide) (by decide) ⟩

/-- Witness for the C3 theorem: concrete double signup with the same email
string, the second failing 409. -/
theorem signup_conflict_exact_match_witness :
    (signupHandler (signupHandler ⟨ [], [], 0 ⟩ "a@x.com" "password1" 3 0).2
        "a@x.com" "password2" 4 9).1
      = ⟨ 409, RespBody.errorMsg "Email already registered" ⟩ :=
  ((signup_conflict_exact_match ⟨ [], [], 0 ⟩ "a@x.com" "password1" 3 0
      (by decide)).2.2.2 "password2" 4 9).1

/-- Witness for the C4 theorem: an unknown-email failure and a
wrong-password failure produce equal 401 responses. -/
theorem login_enumeration_resistant_witness :
    (loginHandler ⟨ [], [], 0 ⟩ "x@y.com" "pw-one-1" 0).1
      = (loginHandler caseState "a@x.com" "wrongpass" 7).1 ∧
    (loginHandler ⟨ [], [], 0 ⟩ "x@y.com" "pw-one-1" 0).1.status = 401 :=
  login_enumeration_resistant ⟨ [], [], 0 ⟩ caseState "x@y.com" "pw-one-1"
    "a@x.com" "wrongpass" 0 7
    ⟨ "u0", "a@x.com", StoredPassword.bcrypt 0 12 "password1" ⟩
    (by decide) (by decide) (by decide)

/-- Witness for the C5 theorem: a codec-level failure evaluates to the 401
`Invalid refresh token` response. -/
theorem refresh_failure_collapse_witness :
    (refreshHandler cx5State cx5Tampered 1000).1
      = ⟨ 401, RespBody.errorMsg "Invalid refresh token" ⟩ :=
  (refresh_failure_collapse cx5State cx5Tampered 1000).2.1 (by decide)

/-- Witness for the C6 theorem: with an expired access token the first
attempt 401s, the refresh runs once, and the single retry with the new
token succeeds and is returned. -/
theorem interceptor_refresh_then_retry_witness :
    (jwtIntercept w6Exch w6Client false w6Next).refreshCalls = 1 ∧
    (jwtIntercept w6Exch w6Client false w6Next).result = w6Next (some w6New) ∧
    (jwtIntercept w6Exch w6Client false w6Next).retries = [some w6New] := by
  have h := interceptor_refresh_then_retry w6Exch w6Client w6Next (by decide)
  exact ⟨ h.1, (h.2.1 w6New (by decide)).1, (h.2.1 w6New (by decide)).2.1 ⟩

/-- Witness for the C7 theorem: a valid bearer token at 500 ms is attached
as identity claims. -/
theorem gatekeeper_check_witness :
    (authMiddleware ⟨ [], [], 0 ⟩
        (AuthHeader.bearer (some (generateAccessToken ⟨ "u0", "a@x.com" ⟩ 0)))
        500).1
      = MwResult.proceed "u0" "a@x.com" :=
  (gatekeeper_check ⟨ [], [], 0 ⟩
      (AuthHeader.bearer (some (generateAccessToken ⟨ "u0", "a@x.com" ⟩ 0)))
      500).2.2.2
    (generateAccessToken ⟨ "u0", "a@x.com" ⟩ 0) ⟨ "u0", "a@x.com" ⟩ rfl
    (by decide)

/-- Witness for the C8 theorem: a concrete successful refresh appends one
record with the 7-day expiry. -/
theorem issuance_one_record_witness :
    (refreshHandler cxState cxToken 5000).1.status = 200 ∧
    ∃ r rest, (refreshHandler cxState cxToken 5000).2.tokens = rest ++ [r] ∧
      rest.Sublist cxState.tokens ∧ r.expiresAt = 5000 + refreshTTLms :=
  ⟨ by decide,
    (issuance_one_record cxState "e@x.com" "pw-abcde" 0 5000 cxToken).2.2
      (by decide) ⟩

/-- Witness for the C10 theorem at a concrete successful exchange. -/
theorem refresh_preserves_identity_witness :
    (refreshHandler cxState cxToken 5000).1.status = 200 ∧
    ∃ a r rcd,
      (refreshHandler cxState cxToken 5000).1.body
        = RespBody.refreshSuccess a r ∧
      a.userId = cxToken.userId ∧ a.email = cxToken.email ∧
      r.userId = cxToken.userId ∧ r.email = cxToken.email ∧
      (refreshHandler cxState cxToken 5000).2.tokens.getLast? = some rcd ∧
      rcd.userId = cxToken.userId ∧ rcd.token = r :=
  ⟨ by decide, refresh_preserves_identity cxState cxToken 5000 (by decide) ⟩

end FSG
